import Mathlib

/-!
Shallow embedding of the dbx remote task execution controller
(`src/dbx/api/execute.py`) and the package locator
(`src/dbx/api/dependency/package_manager.py`).

Remote effects (uploads, remote command execution, installs, dispatch) are
modelled as events appended to a trace; the behaviour of the remote side is an
oracle (`ClientEnv`) that, given the history and the call, either fails (a
remote-call failure, which `execute.py` never catches) or returns output text.
Python exceptions raised by the controller itself are modelled with `Except`.
-/

namespace Dbx

/-- Decimal digits to a number; `none` when empty or not all digits. -/
def digitsToNat (cs : List Char) : Option Nat :=
  if cs = [] then none
  else if cs.all (fun c => c.isDigit) then
    some (cs.foldl (fun acc c => acc * 10 + (c.toNat - 48)) 0)
  else none

/-- Python `int(s)` on a decimal string: optional surrounding whitespace,
optional sign, then digits; anything else raises `ValueError` (modelled as
`none`). -/
def pyInt (s : String) : Option Int :=
  let t := ((s.toList.dropWhile Char.isWhitespace).reverse.dropWhile
    Char.isWhitespace).reverse
  match t with
  | '-' :: rest => (digitsToNat rest).map (fun n => -(n : Int))
  | '+' :: rest => (digitsToNat rest).map (fun n => (n : Int))
  | rest => (digitsToNat rest).map (fun n => (n : Int))

/-- Python `s.split(".")[0]`: the prefix of `s` before its first dot (all of
`s` when it has no dot). -/
def pySplitHead (s : String) : String :=
  String.mk (s.toList.takeWhile (fun c => c ≠ '.'))

/-- Replace every non-overlapping occurrence of `pat` (non-empty) in `src`
left to right, as Python `str.replace`; the fuel bounds the recursion by the
source length. -/
def replaceAllAux (fuel : Nat) (src pat rep : List Char) : List Char :=
  match fuel, src with
  | 0, rest => rest
  | _, [] => []
  | fuel + 1, c :: rest =>
    if pat.isPrefixOf (c :: rest) then
      rep ++ replaceAllAux fuel ((c :: rest).drop pat.length) pat rep
    else c :: replaceAllAux fuel rest pat rep

/-- Python `src.replace(pat, rep)` for a non-empty pattern. -/
def pyReplace (src pat rep : String) : String :=
  String.mk (replaceAllAux src.toList.length src.toList pat.toList rep.toList)

/-- Modelled from the spec: `Library` (from `dbx.models.workflow.common.libraries`,
not under `src/`): an artifact reference whose `whl` field holds the
local-file URI form (`file://...`) of the build output. -/
structure Library where
  whl : String
  deriving DecidableEq

/-- Modelled from the spec: `AdditionalLibrariesProvider`
(from `dbx.api.adjuster.adjuster`, not under `src/`): the immutable artifact
set built in `ExecutionController.__init__` from the `no_package`,
`core_package` and `extra_package` arguments. -/
structure AdditionalLibrariesProvider where
  no_package : Bool
  core_package : Option Library
  extra_package : Option Library
  deriving DecidableEq

/-- Modelled from the spec: the `ScriptTask` shape of the Task descriptor
(`spark_python_task`): a file path plus an ordered parameter sequence. -/
structure SparkPythonTask where
  execute_file : String
  parameters : List String
  deriving DecidableEq

/-- Modelled from the spec: the `EntryPointTask` shape of the Task descriptor
(`python_wheel_task`): package name, entry point, positional parameters and
named parameters. -/
structure PythonWheelTask where
  package_name : String
  entry_point : String
  parameters : List String
  named_parameters : List (String × String)
  deriving DecidableEq

/-- Modelled from the spec: `ExecuteTask` (from `dbx.types`, not under `src/`),
a tagged variant over exactly two shapes. -/
inductive ExecuteTask where
  | spark_python (t : SparkPythonTask)
  | python_wheel (t : PythonWheelTask)
  deriving DecidableEq

/-- Task-type tag, as compared in `run()` against `TaskType.spark_python_task`
and `TaskType.python_wheel_task`. -/
inductive TaskType where
  | spark_python_task
  | python_wheel_task
  deriving DecidableEq

/-- The `task_type` discriminator of the descriptor. -/
def ExecuteTask.task_type : ExecuteTask → TaskType
  | .spark_python _ => .spark_python_task
  | .python_wheel _ => .python_wheel_task

/-- A parameter collection: `Union[List[str], Dict[str, str]]` as in
`preprocess_task_parameters`. -/
inductive TaskParameters where
  | list (ps : List String)
  | dict (kv : List (String × String))
  deriving DecidableEq

/-- A requirements-manifest path together with the outcome of
`Path.exists()` on the local filesystem. -/
structure RequirementsFile where
  path : String
  exists_on_disk : Bool
  deriving DecidableEq

/-- Observable actions of one controller run.  All constructors except
`end_run` (local mlflow bookkeeping) and `enter_install_package` (a
control-flow marker recording that the `install_package` method body was
entered) are remote calls issued through the client or the file uploader. -/
inductive Event where
  | upload (uri : String)
  | execute_command (cmd : String)
  | install_package (remote_path : String) (pip_install_extras : Option String)
  | adjuster_traverse (ps : TaskParameters)
  | setup_arguments (ps : TaskParameters)
  | execute_file (path : String)
  | execute_entry_point (package_name entry_point : String)
  | end_run
  | enter_install_package
  deriving DecidableEq

/-- True exactly for the events that are remote calls (everything except the
mlflow `end_run` bookkeeping and the control-flow marker). -/
def Event.is_remote_call : Event → Bool
  | .end_run => false
  | .enter_install_package => false
  | _ => true

/-- Python exceptions that `execute.py` can raise out of `run()`:
the requirements-file existence check, the two `FileNotFoundError`s, and any
uncaught failure of a remote call. -/
inductive RunError where
  | requirements_missing
  | core_package_not_found
  | extra_package_not_found
  | remote
  deriving DecidableEq

/-- Oracle for the remote side: given the history so far and the call being
made, either fail (the remote call raises) or return output text.  Only
`execute_command` and `upload` results are read by the controller. -/
structure ClientEnv where
  respond : List Event → Event → Except Unit String

/-- Trace monad: a computation threads the event trace and may stop with a
`RunError`. -/
def M (α : Type) := List Event → Except RunError α × List Event

instance : Monad M where
  pure a := fun tr => (Except.ok a, tr)
  bind x f := fun tr =>
    match x tr with
    | (Except.ok a, tr1) => f a tr1
    | (Except.error e, tr1) => (Except.error e, tr1)

/-- Raise a Python exception. -/
def throwE (e : RunError) : M α := fun tr => (Except.error e, tr)

/-- Record a local (non-remote) action. -/
def emit (e : Event) : M Unit := fun tr => (Except.ok (), tr ++ [e])

/-- Issue a remote call: the call is recorded in the trace, then the oracle
decides between output text and a propagated remote failure. -/
def callRemote (env : ClientEnv) (e : Event) : M String := fun tr =>
  (match env.respond tr e with
   | Except.ok s => Except.ok s
   | Except.error _ => Except.error RunError.remote,
   tr ++ [e])

/-- Controller state after `__init__`: the artifact set and the raw
constructor arguments that `run()` reads. -/
structure ExecutionController where
  additional_libraries : AdditionalLibrariesProvider
  upload_via_context : Bool
  requirements_file : Option RequirementsFile
  task : ExecuteTask
  pip_install_extras : Option String
  deriving DecidableEq

/-- The `__init__` uploader selection: `self._run` is set (a tracked mlflow
run is opened) exactly when the context-based uploader was not requested. -/
def tracked_run_opened (upload_via_context : Bool) : Bool :=
  if upload_via_context then false else true

/-- The fixed introspection command of `_identify_runtime_version`. -/
def probe_command : String :=
  "\n        import os\n        print(os.environ.get(\"DATABRICKS_RUNTIME_VERSION\"))\n        "

/-- The remote interpreter-restart command of `_refresh_python_if_necessary`. -/
def refresh_command : String := "dbutils.library.restartPython()"

/-- Embedding of `_identify_runtime_version`: run the probe command, treat the
textual sentinel `"None"` and the empty result as no version, otherwise parse
the leading dot-delimited component with `int()`, absorbing `ValueError`.
A failure of `execute_command` itself is not caught. -/
def ExecutionController.identify_runtime_version (c : ExecutionController)
    (env : ClientEnv) : M (Option Int) :=
  callRemote env (.execute_command probe_command) >>= fun version_string =>
  (match (if version_string = "None" then none else some version_string : Option String) with
   | none => pure none
   | some clean_string =>
     if clean_string = "" then pure none
     else
       match pyInt (pySplitHead clean_string) with
       | some v => pure (some v)
       | none => pure none)

/-- Embedding of `_refresh_python_if_necessary`: probe, and when the version
is truthy (`_version and _version >= 13` in Python: not `None`, not `0`) and
at least 13, issue the restart command. -/
def ExecutionController.refresh_python_if_necessary (c : ExecutionController)
    (env : ClientEnv) : M Unit :=
  c.identify_runtime_version env >>= fun version =>
  match version with
  | some v =>
    if v ≠ 0 ∧ 13 ≤ v then
      callRemote env (.execute_command refresh_command) >>= fun _ => pure ()
    else pure ()
  | none => pure ()

/-- Embedding of `install_requirements_file`; `run()` only calls it when the
optional requirements path is present, so the present manifest is passed
explicitly.  The existence check precedes any remote call. -/
def ExecutionController.install_requirements_file (c : ExecutionController)
    (env : ClientEnv) (rf : RequirementsFile) : M Unit :=
  if !rf.exists_on_disk then throwE RunError.requirements_missing
  else
    callRemote env (.upload ("file:fuse://" ++ rf.path)) >>= fun localized_requirements_path =>
    callRemote env (.execute_command ("%pip install -U -r " ++ localized_requirements_path)) >>= fun _ =>
    c.refresh_python_if_necessary env

/-- Embedding of `install_package` (core package): raises
`FileNotFoundError` when no core package is present, otherwise strips the
`file://` scheme, uploads, installs with the optional pip extras, and runs the
refresh decision.  The leading marker event records that the method body (the
core-install path) was entered. -/
def ExecutionController.install_package (c : ExecutionController)
    (env : ClientEnv) (pip_install_extras : Option String) : M Unit :=
  emit Event.enter_install_package >>= fun _ =>
  match c.additional_libraries.core_package with
  | none => throwE RunError.core_package_not_found
  | some core =>
    callRemote env (.upload ("file:fuse://" ++ pyReplace core.whl "file://" "")) >>= fun localized_package_path =>
    callRemote env (.install_package localized_package_path pip_install_extras) >>= fun _ =>
    c.refresh_python_if_necessary env

/-- Embedding of `install_extra_package`: like the core install but with no
pip extras and no guard suppression; raises `FileNotFoundError` when the
extra package is absent. -/
def ExecutionController.install_extra_package (c : ExecutionController)
    (env : ClientEnv) : M Unit :=
  match c.additional_libraries.extra_package with
  | none => throwE RunError.extra_package_not_found
  | some extra =>
    callRemote env (.upload ("file:fuse://" ++ pyReplace extra.whl "file://" "")) >>= fun localized_package_path =>
    callRemote env (.install_package localized_package_path none) >>= fun _ =>
    c.refresh_python_if_necessary env

/-- Embedding of `preprocess_task_parameters`: the Adjuster traversal followed
by pushing the parameters into the session argument context. -/
def ExecutionController.preprocess_task_parameters (c : ExecutionController)
    (env : ClientEnv) (parameters : TaskParameters) : M Unit :=
  callRemote env (.adjuster_traverse parameters) >>= fun _ =>
  callRemote env (.setup_arguments parameters) >>= fun _ =>
  pure ()

/-- Embedding of `execute_entrypoint_file`. -/
def ExecutionController.execute_entrypoint_file (c : ExecutionController)
    (env : ClientEnv) (file : String) : M Unit :=
  callRemote env (.execute_file file) >>= fun _ => pure ()

/-- Embedding of `execute_entrypoint`. -/
def ExecutionController.execute_entrypoint (c : ExecutionController)
    (env : ClientEnv) (t : PythonWheelTask) : M Unit :=
  callRemote env (.execute_entry_point t.package_name t.entry_point) >>= fun _ => pure ()

/-- Embedding of `ExecutionController.run`, statement by statement:
requirements phase (when a path was supplied), core-install phase (unless
`no_package`), extra-install phase (when an extra package is present),
dispatch on the task shape (for a wheel task the named parameters are
preprocessed, else the positional ones, else nothing), and the final
`mlflow.end_run()` when `__init__` opened a tracked run. -/
def ExecutionController.run (c : ExecutionController) (env : ClientEnv) : M Unit :=
  (match c.requirements_file with
   | some rf => c.install_requirements_file env rf
   | none => pure ()) >>= fun _ =>
  (if !c.additional_libraries.no_package then c.install_package env c.pip_install_extras
   else pure ()) >>= fun _ =>
  (if c.additional_libraries.extra_package.isSome then c.install_extra_package env
   else pure ()) >>= fun _ =>
  (match c.task with
   | .spark_python t =>
     c.preprocess_task_parameters env (.list t.parameters) >>= fun _ =>
     c.execute_entrypoint_file env t.execute_file
   | .python_wheel t =>
     (if t.named_parameters ≠ [] then c.preprocess_task_parameters env (.dict t.named_parameters)
      else if t.parameters ≠ [] then c.preprocess_task_parameters env (.list t.parameters)
      else pure ()) >>= fun _ =>
     c.execute_entrypoint env t) >>= fun _ =>
  (if tracked_run_opened c.upload_via_context then emit Event.end_run else pure ())

/-- A file under the `dist` subdirectory: name and filesystem modification
time (`os.path.getmtime`). -/
structure DistFile where
  name : String
  mtime : Nat
  deriving DecidableEq

namespace PackageManager

/-- Embedding of `PackageManager.get_package_file` on the glob result:
`sorted(file_locator, key=os.path.getmtime)` is Python's stable ascending
sort (modelled by the stable `List.mergeSort`), and the last element of the
sorted list is returned when it exists. -/
def get_package_file (file_locator : List DistFile) : Option DistFile :=
  let sorted_locator := file_locator.mergeSort (fun a b => decide (a.mtime ≤ b.mtime))
  sorted_locator.getLast?

/-- Embedding of `PackageManager.prepare_package`: wrap the located file as a
`Library` whose whl is the local-file URI. -/
def prepare_package (file_locator : List DistFile) : Option Library :=
  match get_package_file file_locator with
  | some package_file => some ⟨"file://" ++ package_file.name⟩
  | none => none

end PackageManager

/-- A computation only appends events, and every appended event satisfies `P`. -/
def EmitsOnly {α : Type} (m : M α) (P : Event → Prop) : Prop :=
  ∀ tr, ∃ d, (m tr).2 = tr ++ d ∧ ∀ e ∈ d, P e

/-- A computation only appends to the trace. -/
def TraceMono {α : Type} (m : M α) : Prop := ∀ tr, ∃ d, (m tr).2 = tr ++ d

/-- The parse of the probe's textual outcome: the `"None"` sentinel and the
empty result give no version, otherwise the leading dot-delimited component is
parsed by `int()` with `ValueError` absorbed. -/
def probe_parse (s : String) : Option Int :=
  if s = "None" then none
  else if s = "" then none
  else
    match pyInt (pySplitHead s) with
    | some v => some v
    | none => none

/-- Events of an install phase: uploads, remote commands, install commands. -/
def InstallEv (e : Event) : Prop :=
  (∃ u, e = .upload u) ∨ (∃ cmd, e = .execute_command cmd) ∨
    (∃ p x, e = .install_package p x)

/-- Events of the requirements phase: uploads and remote commands only (its
install goes through a `%pip` remote command, never `install_package`). -/
def ReqEv (e : Event) : Prop :=
  (∃ u, e = .upload u) ∨ (∃ cmd, e = .execute_command cmd)

/-! Concrete fixtures used by witnesses and counterexamples. -/

/-- A script-task controller with every optional phase disabled. -/
def script_controller : ExecutionController :=
  { additional_libraries := ⟨true, none, none⟩
    upload_via_context := true
    requirements_file := none
    task := .spark_python ⟨"job.py", []⟩
    pip_install_extras := none }

/-- A wheel-task controller with empty positional and named parameters. -/
def wheel_empty_controller : ExecutionController :=
  { additional_libraries := ⟨true, none, none⟩
    upload_via_context := true
    requirements_file := none
    task := .python_wheel ⟨"pkg", "main", [], []⟩
    pip_install_extras := none }

/-- A wheel-task controller with non-empty positional and named parameters. -/
def wheel_both_controller : ExecutionController :=
  { additional_libraries := ⟨true, none, none⟩
    upload_via_context := true
    requirements_file := none
    task := .python_wheel ⟨"pkg", "main", ["pos1"], [("k", "v")]⟩
    pip_install_extras := none }

/-- A controller whose requirements manifest is set but absent on disk. -/
def missing_req_controller : ExecutionController :=
  { additional_libraries := ⟨true, none, none⟩
    upload_via_context := true
    requirements_file := some ⟨"reqs.txt", false⟩
    task := .spark_python ⟨"job.py", []⟩
    pip_install_extras := none }

/-- A controller with the suppress flag set while a core artifact is present. -/
def suppressed_core_controller : ExecutionController :=
  { additional_libraries := ⟨true, some ⟨"file:///dist/a.whl"⟩, none⟩
    upload_via_context := true
    requirements_file := none
    task := .spark_python ⟨"job.py", []⟩
    pip_install_extras := none }

/-- A controller requesting a core install with no core artifact present. -/
def no_core_controller : ExecutionController :=
  { additional_libraries := ⟨false, none, none⟩
    upload_via_context := true
    requirements_file := none
    task := .spark_python ⟨"job.py", []⟩
    pip_install_extras := none }

/-- A controller requesting a core install with no core artifact but with an
existing requirements manifest. -/
def req_no_core_controller : ExecutionController :=
  { additional_libraries := ⟨false, none, none⟩
    upload_via_context := true
    requirements_file := some ⟨"reqs.txt", true⟩
    task := .spark_python ⟨"job.py", []⟩
    pip_install_extras := none }

/-- A controller on the tracked-run (mlflow) transfer strategy with a core
artifact to install. -/
def mlflow_core_controller : ExecutionController :=
  { additional_libraries := ⟨false, some ⟨"file:///dist/a.whl"⟩, none⟩
    upload_via_context := false
    requirements_file := none
    task := .spark_python ⟨"job.py", []⟩
    pip_install_extras := none }

/-- A remote side on which every call succeeds with fixed output text. -/
def ok_env : ClientEnv := ⟨fun _ _ => Except.ok "13.1"⟩

/-- A remote side on which every call fails. -/
def failing_env : ClientEnv := ⟨fun _ _ => Except.error ()⟩

/-- A remote side failing exactly on install commands. -/
def install_fail_env : ClientEnv :=
  ⟨fun _ e =>
    match e with
    | .install_package _ _ => Except.error ()
    | _ => Except.ok "out"⟩

/-! Basic unfolding lemmas for the trace monad. -/

theorem M.pure_apply {α : Type} (a : α) (tr : List Event) :
    (pure a : M α) tr = (Except.ok a, tr) := rfl

theorem M.bind_apply {α β : Type} (x : M α) (f : α → M β) (tr : List Event) :
    (x >>= f) tr =
      match x tr with
      | (Except.ok a, tr1) => f a tr1
      | (Except.error e, tr1) => (Except.error e, tr1) := rfl

theorem callRemote_apply (env : ClientEnv) (e : Event) (tr : List Event) :
    callRemote env e tr =
      (match env.respond tr e with
       | Except.ok s => Except.ok s
       | Except.error _ => Except.error RunError.remote,
       tr ++ [e]) := rfl

theorem callRemote_trace (env : ClientEnv) (e : Event) (tr : List Event) :
    (callRemote env e tr).2 = tr ++ [e] := rfl

theorem emit_apply (e : Event) (tr : List Event) :
    emit e tr = (Except.ok (), tr ++ [e]) := rfl

theorem throwE_apply {α : Type} (e : RunError) (tr : List Event) :
    (throwE e : M α) tr = (Except.error e, tr) := rfl

theorem EmitsOnly.mono {α : Type} {m : M α} {P Q : Event → Prop}
    (h : EmitsOnly m P) (hPQ : ∀ e, P e → Q e) : EmitsOnly m Q := by
  intro tr
  obtain ⟨d, hd, hP⟩ := h tr
  exact ⟨d, hd, fun e he => hPQ e (hP e he)⟩

theorem emitsOnly_pure {α : Type} (a : α) (P : Event → Prop) :
    EmitsOnly (pure a : M α) P :=
  fun tr => ⟨[], by simp [M.pure_apply], by simp⟩

theorem emitsOnly_throwE {α : Type} (e : RunError) (P : Event → Prop) :
    EmitsOnly (throwE e : M α) P :=
  fun tr => ⟨[], by simp [throwE_apply], by simp⟩

theorem emitsOnly_emit {e : Event} {P : Event → Prop} (h : P e) :
    EmitsOnly (emit e) P :=
  fun tr => ⟨[e], by simp [emit_apply], by simp [h]⟩

theorem emitsOnly_callRemote {env : ClientEnv} {e : Event} {P : Event → Prop} (h : P e) :
    EmitsOnly (callRemote env e) P :=
  fun tr => ⟨[e], by simp [callRemote_trace], by simp [h]⟩

theorem EmitsOnly.bind {α β : Type} {m : M α} {f : α → M β} {P : Event → Prop}
    (hm : EmitsOnly m P) (hf : ∀ a, EmitsOnly (f a) P) : EmitsOnly (m >>= f) P := by
  intro tr
  obtain ⟨d1, hd1, hP1⟩ := hm tr
  rcases hx : m tr with ⟨r, tr1⟩
  have htr1 : tr1 = tr ++ d1 := by rw [hx] at hd1; exact hd1
  cases r with
  | error e =>
    refine ⟨d1, ?_, hP1⟩
    rw [M.bind_apply, hx]
    exact htr1
  | ok a =>
    subst htr1
    obtain ⟨d2, hd2, hP2⟩ := hf a (tr ++ d1)
    refine ⟨d1 ++ d2, ?_, ?_⟩
    · rw [M.bind_apply, hx, hd2, List.append_assoc]
    · intro e he
      rcases List.mem_append.mp he with h1 | h2
      · exact hP1 e h1
      · exact hP2 e h2

theorem EmitsOnly.of_ite {α : Type} {p : Prop} [Decidable p] {m1 m2 : M α} {P : Event → Prop}
    (h1 : EmitsOnly m1 P) (h2 : EmitsOnly m2 P) :
    EmitsOnly (if p then m1 else m2) P := by
  by_cases hp : p
  · simpa [hp] using h1
  · simpa [hp] using h2

/-- Success decomposition of a bind: if the composite succeeded, the first
component succeeded and the continuation produced the composite's result. -/
theorem M.bind_ok {α β : Type} {m : M α} {f : α → M β} {tr : List Event} {b : β}
    (h : ((m >>= f) tr).1 = Except.ok b) :
    ∃ a tr1, m tr = (Except.ok a, tr1) ∧ f a tr1 = (m >>= f) tr := by
  rw [M.bind_apply] at h ⊢
  rcases hx : m tr with ⟨r, tr1⟩
  rw [hx] at h
  cases r with
  | ok a => exact ⟨a, tr1, rfl, rfl⟩
  | error e => exact Except.noConfusion h

/-! Closed form of the version probe and per-method event characterizations. -/

theorem identify_apply (c : ExecutionController) (env : ClientEnv) (tr : List Event) :
    c.identify_runtime_version env tr =
      (match env.respond tr (.execute_command probe_command) with
       | Except.ok s => Except.ok (probe_parse s)
       | Except.error _ => Except.error RunError.remote,
       tr ++ [.execute_command probe_command]) := by
  unfold ExecutionController.identify_runtime_version
  rw [M.bind_apply, callRemote_apply]
  rcases env.respond tr (.execute_command probe_command) with u | s
  · rfl
  · dsimp only
    by_cases h1 : s = "None"
    · subst h1; rfl
    · unfold probe_parse
      simp only [if_neg h1]
      by_cases h2 : s = ""
      · subst h2; rfl
      · simp only [if_neg h2]
        rcases hp : pyInt (pySplitHead s) with _ | v <;> rfl

theorem refresh_apply (c : ExecutionController) (env : ClientEnv) (tr : List Event) :
    c.refresh_python_if_necessary env tr =
      match env.respond tr (.execute_command probe_command) with
      | Except.error _ => (Except.error RunError.remote, tr ++ [.execute_command probe_command])
      | Except.ok s =>
        match probe_parse s with
        | some v =>
          if v ≠ 0 ∧ 13 ≤ v then
            (match env.respond (tr ++ [.execute_command probe_command])
                (.execute_command refresh_command) with
             | Except.ok _ => Except.ok ()
             | Except.error _ => Except.error RunError.remote,
             tr ++ [.execute_command probe_command, .execute_command refresh_command])
          else (Except.ok (), tr ++ [.execute_command probe_command])
        | none => (Except.ok (), tr ++ [.execute_command probe_command]) := by
  unfold ExecutionController.refresh_python_if_necessary
  rw [M.bind_apply, identify_apply]
  rcases env.respond tr (.execute_command probe_command) with u | s
  · rfl
  · dsimp only
    rcases hq : probe_parse s with _ | v
    · rfl
    · dsimp only
      by_cases hv : v ≠ 0 ∧ 13 ≤ v
      · simp only [if_pos hv]
        rw [M.bind_apply, callRemote_apply]
        rcases hr2 : env.respond (tr ++ [.execute_command probe_command])
            (.execute_command refresh_command) with u2 | s2 <;>
          simp [hr2, M.pure_apply, List.append_assoc]
      · simp only [if_neg hv]
        rfl

theorem identify_emitsOnly (c : ExecutionController) (env : ClientEnv) :
    EmitsOnly (c.identify_runtime_version env)
      (fun e => e = .execute_command probe_command) := by
  intro tr
  rw [identify_apply]
  exact ⟨[.execute_command probe_command], rfl, by simp⟩

theorem refresh_emitsOnly (c : ExecutionController) (env : ClientEnv) :
    EmitsOnly (c.refresh_python_if_necessary env)
      (fun e => e = .execute_command probe_command ∨ e = .execute_command refresh_command) := by
  unfold ExecutionController.refresh_python_if_necessary
  apply EmitsOnly.bind ((identify_emitsOnly c env).mono (fun e h => Or.inl h))
  intro v
  rcases v with _ | v
  · exact emitsOnly_pure _ _
  · dsimp only
    exact EmitsOnly.of_ite
      (EmitsOnly.bind (emitsOnly_callRemote (Or.inr rfl)) (fun _ => emitsOnly_pure _ _))
      (emitsOnly_pure _ _)

theorem refresh_reqEv :
    ∀ e, (e = Event.execute_command probe_command ∨ e = Event.execute_command refresh_command) →
      ReqEv e := by
  rintro e (rfl | rfl) <;> exact Or.inr ⟨_, rfl⟩

theorem reqEv_installEv : ∀ e, ReqEv e → InstallEv e := by
  rintro e (⟨u, rfl⟩ | ⟨cmd, rfl⟩)
  · exact Or.inl ⟨_, rfl⟩
  · exact Or.inr (Or.inl ⟨_, rfl⟩)

theorem install_requirements_emitsOnly (c : ExecutionController) (env : ClientEnv)
    (rf : RequirementsFile) :
    EmitsOnly (c.install_requirements_file env rf) ReqEv := by
  unfold ExecutionController.install_requirements_file
  apply EmitsOnly.of_ite (emitsOnly_throwE _ _)
  apply EmitsOnly.bind (emitsOnly_callRemote (Or.inl ⟨_, rfl⟩))
  intro p
  apply EmitsOnly.bind (emitsOnly_callRemote (Or.inr ⟨_, rfl⟩))
  intro _
  exact (refresh_emitsOnly c env).mono refresh_reqEv

theorem install_package_emitsOnly (c : ExecutionController) (env : ClientEnv)
    (x : Option String) :
    EmitsOnly (c.install_package env x)
      (fun e => e = .enter_install_package ∨ InstallEv e) := by
  unfold ExecutionController.install_package
  apply EmitsOnly.bind (emitsOnly_emit (Or.inl rfl))
  intro _
  rcases c.additional_libraries.core_package with _ | core
  · exact emitsOnly_throwE _ _
  · apply EmitsOnly.bind (emitsOnly_callRemote (Or.inr (Or.inl ⟨_, rfl⟩)))
    intro p
    apply EmitsOnly.bind (emitsOnly_callRemote (Or.inr (Or.inr (Or.inr ⟨_, _, rfl⟩))))
    intro _
    exact (refresh_emitsOnly c env).mono
      (fun e h => Or.inr (reqEv_installEv e (refresh_reqEv e h)))

theorem install_extra_package_emitsOnly (c : ExecutionController) (env : ClientEnv) :
    EmitsOnly (c.install_extra_package env) InstallEv := by
  unfold ExecutionController.install_extra_package
  rcases c.additional_libraries.extra_package with _ | extra
  · exact emitsOnly_throwE _ _
  · apply EmitsOnly.bind (emitsOnly_callRemote (Or.inl ⟨_, rfl⟩))
    intro p
    apply EmitsOnly.bind (emitsOnly_callRemote (Or.inr (Or.inr ⟨_, _, rfl⟩)))
    intro _
    exact (refresh_emitsOnly c env).mono (fun e h => reqEv_installEv e (refresh_reqEv e h))

theorem preprocess_emitsOnly (c : ExecutionController) (env : ClientEnv)
    (ps : TaskParameters) :
    EmitsOnly (c.preprocess_task_parameters env ps)
      (fun e => e = .adjuster_traverse ps ∨ e = .setup_arguments ps) := by
  unfold ExecutionController.preprocess_task_parameters
  apply EmitsOnly.bind (emitsOnly_callRemote (Or.inl rfl))
  intro _
  apply EmitsOnly.bind (emitsOnly_callRemote (Or.inr rfl))
  intro _
  exact emitsOnly_pure _ _

theorem execute_entrypoint_file_emitsOnly (c : ExecutionController) (env : ClientEnv)
    (file : String) :
    EmitsOnly (c.execute_entrypoint_file env file) (fun e => e = .execute_file file) := by
  unfold ExecutionController.execute_entrypoint_file
  exact EmitsOnly.bind (emitsOnly_callRemote rfl) (fun _ => emitsOnly_pure _ _)

theorem execute_entrypoint_emitsOnly (c : ExecutionController) (env : ClientEnv)
    (t : PythonWheelTask) :
    EmitsOnly (c.execute_entrypoint env t)
      (fun e => e = .execute_entry_point t.package_name t.entry_point) := by
  unfold ExecutionController.execute_entrypoint
  exact EmitsOnly.bind (emitsOnly_callRemote rfl) (fun _ => emitsOnly_pure _ _)

/-! Run-level composition lemmas. -/

theorem EmitsOnly.traceMono {α : Type} {m : M α} {P : Event → Prop}
    (h : EmitsOnly m P) : TraceMono m :=
  fun tr => ⟨(h tr).choose, (h tr).choose_spec.1⟩

/-- Membership established by the first component of a bind persists. -/
theorem mem_bind {α β : Type} {m : M α} {f : α → M β} {e : Event} {tr : List Event}
    (hm : e ∈ (m tr).2) (hf : ∀ a, TraceMono (f a)) :
    e ∈ ((m >>= f) tr).2 := by
  rw [M.bind_apply]
  rcases hx : m tr with ⟨r, tr1⟩
  rw [hx] at hm
  cases r with
  | error er => exact hm
  | ok a =>
    obtain ⟨d, hd⟩ := hf a tr1
    show e ∈ (f a tr1).2
    rw [hd]
    exact List.mem_append_left _ hm

/-- The dispatch of a script file always records exactly its call. -/
theorem execute_entrypoint_file_trace (c : ExecutionController) (env : ClientEnv)
    (file : String) (tr : List Event) :
    (c.execute_entrypoint_file env file tr).2 = tr ++ [.execute_file file] := by
  unfold ExecutionController.execute_entrypoint_file
  rw [M.bind_apply, callRemote_apply]
  rcases hr : env.respond tr (.execute_file file) with u | s <;> simp [hr, M.pure_apply]

/-- The dispatch of an entry point always records exactly its call. -/
theorem execute_entrypoint_trace (c : ExecutionController) (env : ClientEnv)
    (t : PythonWheelTask) (tr : List Event) :
    (c.execute_entrypoint env t tr).2 = tr ++ [.execute_entry_point t.package_name t.entry_point] := by
  unfold ExecutionController.execute_entrypoint
  rw [M.bind_apply, callRemote_apply]
  rcases hr : env.respond tr (.execute_entry_point t.package_name t.entry_point) with u | s <;>
    simp [hr, M.pure_apply]

/-- The Adjuster traversal is always recorded when the parameter-processing
method runs, whatever the remote outcomes. -/
theorem preprocess_mem_traverse (c : ExecutionController) (env : ClientEnv)
    (ps : TaskParameters) (tr : List Event) :
    Event.adjuster_traverse ps ∈ (c.preprocess_task_parameters env ps tr).2 := by
  unfold ExecutionController.preprocess_task_parameters
  rw [M.bind_apply, callRemote_apply]
  rcases hr : env.respond tr (.adjuster_traverse ps) with u | s
  · simp [hr]
  · simp only [hr]
    rw [M.bind_apply, callRemote_apply]
    rcases hr2 : env.respond (tr ++ [.adjuster_traverse ps]) (.setup_arguments ps) with u2 | s2 <;>
      simp [hr2, M.pure_apply]

/-- On success the parameter-processing method records exactly its two calls. -/
theorem preprocess_ok_trace (c : ExecutionController) (env : ClientEnv)
    (ps : TaskParameters) (tr : List Event)
    (h : (c.preprocess_task_parameters env ps tr).1 = Except.ok ()) :
    (c.preprocess_task_parameters env ps tr).2 =
      tr ++ [.adjuster_traverse ps, .setup_arguments ps] := by
  unfold ExecutionController.preprocess_task_parameters at h ⊢
  rw [M.bind_apply, callRemote_apply] at h ⊢
  rcases hr : env.respond tr (.adjuster_traverse ps) with u | s
  · rw [hr] at h; exact Except.noConfusion h
  · simp only [hr] at h ⊢
    rw [M.bind_apply, callRemote_apply] at h ⊢
    rcases hr2 : env.respond (tr ++ [.adjuster_traverse ps]) (.setup_arguments ps) with u2 | s2 <;>
      simp [hr2, M.pure_apply, List.append_assoc] at h ⊢

/-- When the core package is absent, `install_package` raises
`FileNotFoundError` straight after entering, with no remote call. -/
theorem install_package_none (c : ExecutionController) (env : ClientEnv)
    (x : Option String) (tr : List Event)
    (h : c.additional_libraries.core_package = none) :
    c.install_package env x tr =
      (Except.error RunError.core_package_not_found, tr ++ [Event.enter_install_package]) := by
  unfold ExecutionController.install_package
  rw [M.bind_apply, emit_apply, h]
  rfl

/-- Success decomposition of a five-statement sequence like `run`. -/
theorem M.seq5_ok {m1 m2 m3 m4 m5 : M Unit} {tr0 : List Event}
    (h : ((m1 >>= fun _ => m2 >>= fun _ => m3 >>= fun _ => m4 >>= fun _ => m5) tr0).1 =
      Except.ok ()) :
    ∃ tr1 tr2 tr3 tr4,
      m1 tr0 = (Except.ok (), tr1) ∧ m2 tr1 = (Except.ok (), tr2) ∧
      m3 tr2 = (Except.ok (), tr3) ∧ m4 tr3 = (Except.ok (), tr4) ∧
      m5 tr4 = (m1 >>= fun _ => m2 >>= fun _ => m3 >>= fun _ => m4 >>= fun _ => m5) tr0 := by
  obtain ⟨a1, tr1, h1, e1⟩ := M.bind_ok h
  rw [← e1] at h
  obtain ⟨a2, tr2, h2, e2⟩ := M.bind_ok h
  rw [← e2] at h
  obtain ⟨a3, tr3, h3, e3⟩ := M.bind_ok h
  rw [← e3] at h
  obtain ⟨a4, tr4, h4, e4⟩ := M.bind_ok h
  exact ⟨tr1, tr2, tr3, tr4, h1, h2, h3, h4, e4.trans (e3.trans (e2.trans e1))⟩

/-- The whole run emits only events satisfying `P`, given that every phase
that can actually execute does. -/
theorem run_emitsOnly {P : Event → Prop} (c : ExecutionController) (env : ClientEnv)
    (hreq : ∀ rf, c.requirements_file = some rf →
      EmitsOnly (c.install_requirements_file env rf) P)
    (hcore : c.additional_libraries.no_package = false →
      EmitsOnly (c.install_package env c.pip_install_extras) P)
    (hextra : EmitsOnly (c.install_extra_package env) P)
    (hspark : ∀ t, c.task = .spark_python t →
      EmitsOnly (c.preprocess_task_parameters env (.list t.parameters)) P ∧
      EmitsOnly (c.execute_entrypoint_file env t.execute_file) P)
    (hwheel : ∀ t, c.task = .python_wheel t →
      EmitsOnly (if t.named_parameters ≠ [] then
                   c.preprocess_task_parameters env (.dict t.named_parameters)
                 else if t.parameters ≠ [] then
                   c.preprocess_task_parameters env (.list t.parameters)
                 else pure ()) P ∧
      EmitsOnly (c.execute_entrypoint env t) P)
    (hend : P Event.end_run) :
    EmitsOnly (c.run env) P := by
  unfold ExecutionController.run
  apply EmitsOnly.bind
  · rcases hrf : c.requirements_file with _ | rf
    · exact emitsOnly_pure _ _
    · exact hreq rf hrf
  intro _
  apply EmitsOnly.bind
  · rcases hnp : c.additional_libraries.no_package
    · rw [if_pos (show (!false) = true from rfl)]
      exact hcore hnp
    · rw [if_neg (show ¬((!true) = true) by decide)]
      exact emitsOnly_pure _ _
  intro _
  apply EmitsOnly.bind
  · exact EmitsOnly.of_ite hextra (emitsOnly_pure _ _)
  intro _
  apply EmitsOnly.bind
  · rcases ht : c.task with t | t
    · exact EmitsOnly.bind (hspark t ht).1 (fun _ => (hspark t ht).2)
    · exact EmitsOnly.bind (hwheel t ht).1 (fun _ => (hwheel t ht).2)
  intro _
  exact EmitsOnly.of_ite (emitsOnly_emit hend) (emitsOnly_pure _ _)

/-- A bind whose first component always fails only emits the first
component's events. -/
theorem emitsOnly_bind_error {α β : Type} {m : M α} {f : α → M β} {P : Event → Prop}
    (hm : EmitsOnly m P) (herr : ∀ tr, ∃ er, (m tr).1 = Except.error er) :
    EmitsOnly (m >>= f) P := by
  intro tr
  obtain ⟨d, hd, hP⟩ := hm tr
  obtain ⟨er, her⟩ := herr tr
  refine ⟨d, ?_, hP⟩
  rw [M.bind_apply]
  rcases hx : m tr with ⟨r, tr1⟩
  rw [hx] at her hd
  cases r with
  | ok a => exact Except.noConfusion her
  | error e => exact hd

theorem install_package_none_emitsOnly (c : ExecutionController) (env : ClientEnv)
    (x : Option String) (h : c.additional_libraries.core_package = none) :
    EmitsOnly (c.install_package env x) (fun e => e = Event.enter_install_package) :=
  fun tr => ⟨[Event.enter_install_package],
    by rw [install_package_none c env x tr h], by simp⟩

/-- In an ascending-sorted list the last element bounds every member. -/
theorem pairwise_le_getLast_max :
    ∀ {l : List DistFile}, l.Pairwise (fun a b => a.mtime ≤ b.mtime) →
      ∀ {f}, l.getLast? = some f → ∀ g ∈ l, g.mtime ≤ f.mtime := by
  intro l
  induction l with
  | nil =>
    intro _ f hf
    exact Option.noConfusion hf
  | cons a t ih =>
    intro hp f hf g hg
    obtain ⟨ha, ht⟩ := List.pairwise_cons.mp hp
    rcases t with _ | ⟨b, t2⟩
    · have hfa : f = a := by simpa using hf.symm
      have hga : g = a := by simpa using hg
      subst hfa; subst hga
      exact le_refl _
    · rw [List.getLast?_cons_cons] at hf
      rcases List.mem_cons.mp hg with hga | hgt
      · subst hga
        have hne : (b :: t2) ≠ ([] : List DistFile) := by simp
        have hlast := List.getLast?_eq_getLast (b :: t2) hne
        rw [hlast] at hf
        injection hf with hfl
        exact ha f (hfl ▸ List.getLast_mem hne)
      · exact ih ht hf g hgt

/-! Claim C5. -/

/-- C5: the runtime-refresh decision issues the remote restart command if and
only if the probe yields a known major version at least the threshold 13; an
unknown version, a below-threshold version or a failed probe command issues
no restart. -/
theorem C5_runtime_refresh_iff (c : ExecutionController) (env : ClientEnv) :
    Event.execute_command refresh_command ∈ (c.refresh_python_if_necessary env []).2 ↔
      ∃ n, (c.identify_runtime_version env []).1 = Except.ok (some n) ∧ 13 ≤ n := by
  rw [refresh_apply, identify_apply]
  rcases hr : env.respond [] (.execute_command probe_command) with u | s
  · dsimp only
    constructor
    · intro hmem
      simp only [List.nil_append, List.mem_singleton] at hmem
      exact absurd hmem (by decide)
    · rintro ⟨n, hn, -⟩
      exact Except.noConfusion hn
  · dsimp only
    rcases hq : probe_parse s with _ | v
    · constructor
      · intro hmem
        simp only [List.nil_append, List.mem_singleton] at hmem
        exact absurd hmem (by decide)
      · rintro ⟨n, hn, -⟩
        simp at hn
    · dsimp only
      by_cases hv : v ≠ 0 ∧ 13 ≤ v
      · rw [if_pos hv]
        constructor
        · intro _
          exact ⟨v, rfl, hv.2⟩
        · intro _
          simp
      · rw [if_neg hv]
        constructor
        · intro hmem
          simp only [List.nil_append, List.mem_singleton] at hmem
          exact absurd hmem (by decide)
        · rintro ⟨n, hn, hn13⟩
          have hvn : v = n := by simpa using hn
          exact absurd ⟨by omega, by omega⟩ hv

/-! Claim C6. -/

/-- C6 counterexample: when the underlying remote command fails, the probe
propagates a remote error out instead of returning unknown. -/
theorem C6_counterexample :
    (script_controller.identify_runtime_version failing_env []).1 =
      Except.error RunError.remote ∧
    (script_controller.identify_runtime_version failing_env []).1 ≠
      Except.ok none := by
  refine ⟨rfl, ?_⟩
  intro h
  exact Except.noConfusion h

/-- C6 (amended): every textual outcome of the probe command is absorbed —
the `"None"` sentinel, the empty result and an unparseable leading component
all give unknown, and a parseable one gives its value — but a failure of the
underlying remote command itself propagates as a remote error. -/
theorem C6_probe_absorbs_text (c : ExecutionController) (env : ClientEnv) (tr : List Event) :
    (∀ s, env.respond tr (.execute_command probe_command) = Except.ok s →
      (c.identify_runtime_version env tr).1 = Except.ok (probe_parse s)) ∧
    (∀ u, env.respond tr (.execute_command probe_command) = Except.error u →
      (c.identify_runtime_version env tr).1 = Except.error RunError.remote) := by
  constructor
  · intro s hs
    rw [identify_apply, hs]
  · intro u hu
    rw [identify_apply, hu]

theorem C6_witness :
    (script_controller.identify_runtime_version ok_env []).1 = Except.ok (some 13) ∧
    (script_controller.identify_runtime_version failing_env []).1 =
      Except.error RunError.remote ∧
    probe_parse "None" = none ∧ probe_parse "" = none ∧ probe_parse "abc" = none := by
  refine ⟨?_, (C6_probe_absorbs_text script_controller failing_env []).2 () rfl,
    by decide, by decide, by decide⟩
  rw [(C6_probe_absorbs_text script_controller ok_env []).1 "13.1" rfl]
  have hp : probe_parse "13.1" = some 13 := by decide
  rw [hp]

/-! Claim C7. -/

/-- C7: a supplied requirements path that does not exist on disk makes the
run fail with the configuration error before any call at all: the whole run
produces an empty trace. -/
theorem C7_requirements_missing (c : ExecutionController) (env : ClientEnv)
    (rf : RequirementsFile) (hrf : c.requirements_file = some rf)
    (habs : rf.exists_on_disk = false) :
    c.run env [] = (Except.error RunError.requirements_missing, []) := by
  have h1 : c.install_requirements_file env rf [] =
      (Except.error RunError.requirements_missing, []) := by
    unfold ExecutionController.install_requirements_file
    rw [habs]
    rfl
  unfold ExecutionController.run
  rw [M.bind_apply, hrf]
  dsimp only
  rw [h1]

theorem C7_witness :
    missing_req_controller.run ok_env [] =
      (Except.error RunError.requirements_missing, []) :=
  C7_requirements_missing missing_req_controller ok_env ⟨"reqs.txt", false⟩ rfl rfl

/-! Claim C2. -/

/-- C2 counterexample: on the tracked-run strategy a remote failure during
the core install propagates out of `run()` without `end_run` — the tracked
run opened at construction is left open on the failure path. -/
theorem C2_counterexample :
    tracked_run_opened mlflow_core_controller.upload_via_context = true ∧
    (mlflow_core_controller.run install_fail_env []).1 = Except.error RunError.remote ∧
    Event.end_run ∉ (mlflow_core_controller.run install_fail_env []).2 := by
  refine ⟨rfl, rfl, ?_⟩
  decide

/-- C2 (amended): the tracked run opened at construction is closed whenever
`run()` returns successfully — the failure path leaves it open, as the
counterexample shows — and a context-strategy controller never opens a
tracked run. -/
theorem C2_tracked_run_closed (c : ExecutionController) (env : ClientEnv) :
    (tracked_run_opened c.upload_via_context = true → (c.run env []).1 = Except.ok () →
      Event.end_run ∈ (c.run env []).2) ∧
    (c.upload_via_context = true → tracked_run_opened c.upload_via_context = false) := by
  constructor
  · intro hop hok
    unfold ExecutionController.run at hok ⊢
    obtain ⟨tr1, tr2, tr3, tr4, h1, h2, h3, h4, h5⟩ := M.seq5_ok hok
    rw [← h5, if_pos hop, emit_apply]
    simp
  · intro h
    rw [h]
    rfl

theorem C2_witness :
    Event.end_run ∈ (mlflow_core_controller.run ok_env []).2 ∧
    tracked_run_opened script_controller.upload_via_context = false :=
  ⟨(C2_tracked_run_closed mlflow_core_controller ok_env).1 rfl rfl,
   (C2_tracked_run_closed script_controller ok_env).2 rfl⟩

/-! Claim C9. -/

/-- C9: exactly one dispatch branch executes, matching the descriptor's
shape: a script task never dispatches an entry point and on a completed run
dispatches its file; a wheel task never dispatches a file and on a completed
run dispatches its entry point. The two shapes are exhaustive, so no run
reaches dispatch without one of the branches. -/
theorem C9_dispatch_exactly_one (c : ExecutionController) (env : ClientEnv) :
    (∀ t, c.task = .spark_python t →
      (∀ p ep, Event.execute_entry_point p ep ∉ (c.run env []).2) ∧
      ((c.run env []).1 = Except.ok () →
        Event.execute_file t.execute_file ∈ (c.run env []).2)) ∧
    (∀ t, c.task = .python_wheel t →
      (∀ f, Event.execute_file f ∉ (c.run env []).2) ∧
      ((c.run env []).1 = Except.ok () →
        Event.execute_entry_point t.package_name t.entry_point ∈ (c.run env []).2)) := by
  constructor
  · intro t ht
    constructor
    · have hrun : EmitsOnly (c.run env)
          (fun e => ∀ p ep, e ≠ Event.execute_entry_point p ep) := by
        apply run_emitsOnly
        · intro rf _
          exact (install_requirements_emitsOnly c env rf).mono
            (by rintro e (⟨u, rfl⟩ | ⟨cmd, rfl⟩) <;> simp)
        · intro _
          exact (install_package_emitsOnly c env _).mono
            (by rintro e (rfl | ⟨u, rfl⟩ | ⟨cmd, rfl⟩ | ⟨p2, x, rfl⟩) <;> simp)
        · exact (install_extra_package_emitsOnly c env).mono
            (by rintro e (⟨u, rfl⟩ | ⟨cmd, rfl⟩ | ⟨p2, x, rfl⟩) <;> simp)
        · intro t2 _
          exact ⟨(preprocess_emitsOnly c env _).mono (by rintro e (rfl | rfl) <;> simp),
            (execute_entrypoint_file_emitsOnly c env _).mono (by rintro e rfl; simp)⟩
        · intro t2 ht2
          rw [ht] at ht2
          exact ExecuteTask.noConfusion ht2
        · simp
      intro p ep
      obtain ⟨d, hd, hP⟩ := hrun []
      rw [hd, List.nil_append]
      intro hmem
      exact hP _ hmem p ep rfl
    · intro hok
      unfold ExecutionController.run at hok ⊢
      obtain ⟨tr1, tr2, tr3, tr4, h1, h2, h3, h4, h5⟩ := M.seq5_ok hok
      rw [ht] at h4
      have h4b : (c.preprocess_task_parameters env (.list t.parameters) >>= fun _ =>
          c.execute_entrypoint_file env t.execute_file) tr3 = (Except.ok (), tr4) := h4
      have hok4 : ((c.preprocess_task_parameters env (.list t.parameters) >>= fun _ =>
          c.execute_entrypoint_file env t.execute_file) tr3).1 = Except.ok () := by
        rw [h4b]
      obtain ⟨a, tr3b, hpre, hrest⟩ := M.bind_ok hok4
      have hrest2 : c.execute_entrypoint_file env t.execute_file tr3b =
          (Except.ok (), tr4) := hrest.trans h4b
      have htr4 : tr4 = tr3b ++ [Event.execute_file t.execute_file] := by
        have hft := execute_entrypoint_file_trace c env t.execute_file tr3b
        rw [hrest2] at hft
        exact hft
      rw [← h5]
      obtain ⟨d, hd⟩ := ((EmitsOnly.of_ite (emitsOnly_emit trivial) (emitsOnly_pure _ _) :
        EmitsOnly (if tracked_run_opened c.upload_via_context = true then
          emit Event.end_run else pure ()) (fun _ => True)).traceMono) tr4
      rw [hd, htr4]
      simp
  · intro t ht
    constructor
    · have hrun : EmitsOnly (c.run env) (fun e => ∀ f, e ≠ Event.execute_file f) := by
        apply run_emitsOnly
        · intro rf _
          exact (install_requirements_emitsOnly c env rf).mono
            (by rintro e (⟨u, rfl⟩ | ⟨cmd, rfl⟩) <;> simp)
        · intro _
          exact (install_package_emitsOnly c env _).mono
            (by rintro e (rfl | ⟨u, rfl⟩ | ⟨cmd, rfl⟩ | ⟨p2, x, rfl⟩) <;> simp)
        · exact (install_extra_package_emitsOnly c env).mono
            (by rintro e (⟨u, rfl⟩ | ⟨cmd, rfl⟩ | ⟨p2, x, rfl⟩) <;> simp)
        · intro t2 ht2
          rw [ht] at ht2
          exact ExecuteTask.noConfusion ht2
        · intro t2 _
          refine ⟨EmitsOnly.of_ite
            ((preprocess_emitsOnly c env _).mono (by rintro e (rfl | rfl) <;> simp))
            (EmitsOnly.of_ite
              ((preprocess_emitsOnly c env _).mono (by rintro e (rfl | rfl) <;> simp))
              (emitsOnly_pure _ _)), ?_⟩
          exact (execute_entrypoint_emitsOnly c env _).mono (by rintro e rfl; simp)
        · simp
      intro f
      obtain ⟨d, hd, hP⟩ := hrun []
      rw [hd, List.nil_append]
      intro hmem
      exact hP _ hmem f rfl
    · intro hok
      unfold ExecutionController.run at hok ⊢
      obtain ⟨tr1, tr2, tr3, tr4, h1, h2, h3, h4, h5⟩ := M.seq5_ok hok
      rw [ht] at h4
      have h4b : ((if t.named_parameters ≠ [] then
            c.preprocess_task_parameters env (.dict t.named_parameters)
          else if t.parameters ≠ [] then
            c.preprocess_task_parameters env (.list t.parameters)
          else pure ()) >>= fun _ =>
          c.execute_entrypoint env t) tr3 = (Except.ok (), tr4) := h4
      have hok4 : (((if t.named_parameters ≠ [] then
            c.preprocess_task_parameters env (.dict t.named_parameters)
          else if t.parameters ≠ [] then
            c.preprocess_task_parameters env (.list t.parameters)
          else pure ()) >>= fun _ =>
          c.execute_entrypoint env t) tr3).1 = Except.ok () := by
        rw [h4b]
      obtain ⟨a, tr3b, hpre, hrest⟩ := M.bind_ok hok4
      have hrest2 : c.execute_entrypoint env t tr3b = (Except.ok (), tr4) :=
        hrest.trans h4b
      have htr4 : tr4 = tr3b ++ [Event.execute_entry_point t.package_name t.entry_point] := by
        have hft := execute_entrypoint_trace c env t tr3b
        rw [hrest2] at hft
        exact hft
      rw [← h5]
      obtain ⟨d, hd⟩ := ((EmitsOnly.of_ite (emitsOnly_emit trivial) (emitsOnly_pure _ _) :
        EmitsOnly (if tracked_run_opened c.upload_via_context = true then
          emit Event.end_run else pure ()) (fun _ => True)).traceMono) tr4
      rw [hd, htr4]
      simp

theorem C9_witness :
    Event.execute_file "job.py" ∈ (script_controller.run ok_env []).2 ∧
    (∀ p ep, Event.execute_entry_point p ep ∉ (script_controller.run ok_env []).2) ∧
    Event.execute_entry_point "pkg" "main" ∈ (wheel_both_controller.run ok_env []).2 ∧
    (∀ f, Event.execute_file f ∉ (wheel_both_controller.run ok_env []).2) :=
  ⟨((C9_dispatch_exactly_one script_controller ok_env).1 _ rfl).2 rfl,
   ((C9_dispatch_exactly_one script_controller ok_env).1 _ rfl).1,
   ((C9_dispatch_exactly_one wheel_both_controller ok_env).2 _ rfl).2 rfl,
   ((C9_dispatch_exactly_one wheel_both_controller ok_env).2 _ rfl).1⟩

/-! Claim C10. -/

/-- C10: for a wheel task with non-empty named and non-empty positional
parameters, only the named mapping is resolved and pushed into the argument
context — the positional sequence is never passed to the Adjuster or to
setup_arguments, while on a completed run the named mapping is passed to
both. -/
theorem C10_named_parameters_take_precedence (c : ExecutionController)
    (env : ClientEnv) (t : PythonWheelTask) (ht : c.task = .python_wheel t)
    (hn : t.named_parameters ≠ []) (hp : t.parameters ≠ []) :
    (Event.adjuster_traverse (.list t.parameters) ∉ (c.run env []).2 ∧
     Event.setup_arguments (.list t.parameters) ∉ (c.run env []).2) ∧
    ((c.run env []).1 = Except.ok () →
      Event.adjuster_traverse (.dict t.named_parameters) ∈ (c.run env []).2 ∧
      Event.setup_arguments (.dict t.named_parameters) ∈ (c.run env []).2) := by
  constructor
  · have hrun : EmitsOnly (c.run env)
        (fun e => e ≠ Event.adjuster_traverse (.list t.parameters) ∧
          e ≠ Event.setup_arguments (.list t.parameters)) := by
      apply run_emitsOnly
      · intro rf _
        exact (install_requirements_emitsOnly c env rf).mono
          (by rintro e (⟨u, rfl⟩ | ⟨cmd, rfl⟩) <;> simp)
      · intro _
        exact (install_package_emitsOnly c env _).mono
          (by rintro e (rfl | ⟨u, rfl⟩ | ⟨cmd, rfl⟩ | ⟨p2, x, rfl⟩) <;> simp)
      · exact (install_extra_package_emitsOnly c env).mono
          (by rintro e (⟨u, rfl⟩ | ⟨cmd, rfl⟩ | ⟨p2, x, rfl⟩) <;> simp)
      · intro t2 ht2
        rw [ht] at ht2
        exact ExecuteTask.noConfusion ht2
      · intro t2 ht2
        rw [ht] at ht2
        injection ht2 with htt
        subst htt
        refine ⟨?_, (execute_entrypoint_emitsOnly c env _).mono (by rintro e rfl; simp)⟩
        rw [if_pos hn]
        exact (preprocess_emitsOnly c env _).mono (by rintro e (rfl | rfl) <;> simp)
      · simp
    obtain ⟨d, hd, hP⟩ := hrun []
    rw [hd, List.nil_append]
    exact ⟨fun hmem => (hP _ hmem).1 rfl, fun hmem => (hP _ hmem).2 rfl⟩
  · intro hok
    unfold ExecutionController.run at hok ⊢
    obtain ⟨tr1, tr2, tr3, tr4, h1, h2, h3, h4, h5⟩ := M.seq5_ok hok
    rw [ht] at h4
    have h4b : ((if t.named_parameters ≠ [] then
          c.preprocess_task_parameters env (.dict t.named_parameters)
        else if t.parameters ≠ [] then
          c.preprocess_task_parameters env (.list t.parameters)
        else pure ()) >>= fun _ =>
        c.execute_entrypoint env t) tr3 = (Except.ok (), tr4) := h4
    rw [if_pos hn] at h4b
    have hok4 : ((c.preprocess_task_parameters env (.dict t.named_parameters) >>= fun _ =>
        c.execute_entrypoint env t) tr3).1 = Except.ok () := by
      rw [h4b]
    obtain ⟨a, tr3b, hpre, hrest⟩ := M.bind_ok hok4
    have hpre2 : (c.preprocess_task_parameters env (.dict t.named_parameters) tr3).1 =
        Except.ok () := by
      rw [hpre]
    have htr3b : tr3b = tr3 ++ [Event.adjuster_traverse (.dict t.named_parameters),
        Event.setup_arguments (.dict t.named_parameters)] := by
      have hpt := preprocess_ok_trace c env (.dict t.named_parameters) tr3 hpre2
      rw [hpre] at hpt
      exact hpt
    have hrest2 : c.execute_entrypoint env t tr3b = (Except.ok (), tr4) :=
      hrest.trans h4b
    have htr4 : tr4 = tr3b ++ [Event.execute_entry_point t.package_name t.entry_point] := by
      have hft := execute_entrypoint_trace c env t tr3b
      rw [hrest2] at hft
      exact hft
    rw [← h5]
    obtain ⟨d, hd⟩ := ((EmitsOnly.of_ite (emitsOnly_emit trivial) (emitsOnly_pure _ _) :
      EmitsOnly (if tracked_run_opened c.upload_via_context = true then
        emit Event.end_run else pure ()) (fun _ => True)).traceMono) tr4
    rw [hd, htr4, htr3b]
    constructor <;> simp

theorem C10_witness :
    (Event.adjuster_traverse (.list ["pos1"]) ∉ (wheel_both_controller.run ok_env []).2) ∧
    (Event.setup_arguments (.list ["pos1"]) ∉ (wheel_both_controller.run ok_env []).2) ∧
    Event.adjuster_traverse (.dict [("k", "v")]) ∈ (wheel_both_controller.run ok_env []).2 ∧
    Event.setup_arguments (.dict [("k", "v")]) ∈ (wheel_both_controller.run ok_env []).2 :=
  ⟨(C10_named_parameters_take_precedence wheel_both_controller ok_env _ rfl
      (by decide) (by decide)).1.1,
   (C10_named_parameters_take_precedence wheel_both_controller ok_env _ rfl
      (by decide) (by decide)).1.2,
   ((C10_named_parameters_take_precedence wheel_both_controller ok_env _ rfl
      (by decide) (by decide)).2 rfl).1,
   ((C10_named_parameters_take_precedence wheel_both_controller ok_env _ rfl
      (by decide) (by decide)).2 rfl).2⟩

/-! Claim C8. -/

/-- C8: on a non-empty candidate set with pairwise-distinct modification
times the locator returns a file of the set carrying the maximum modification
time, whatever the input (filename) order; on an empty set it returns none. -/
theorem C8_locator_max_mtime (files : List DistFile)
    (hd : files.Pairwise (fun a b => a.mtime ≠ b.mtime)) :
    (files = [] → PackageManager.get_package_file files = none) ∧
    (files ≠ [] → ∃ f, PackageManager.get_package_file files = some f ∧ f ∈ files ∧
      ∀ g ∈ files, g.mtime ≤ f.mtime) := by
  constructor
  · rintro rfl
    unfold PackageManager.get_package_file
    rw [List.mergeSort_nil]
    rfl
  · intro hne
    unfold PackageManager.get_package_file
    have htrans : ∀ a b c : DistFile, decide (a.mtime ≤ b.mtime) = true →
        decide (b.mtime ≤ c.mtime) = true → decide (a.mtime ≤ c.mtime) = true := by
      intro a b c hab hbc
      simp only [decide_eq_true_eq] at hab hbc ⊢
      omega
    have htotal : ∀ a b : DistFile,
        (decide (a.mtime ≤ b.mtime) || decide (b.mtime ≤ a.mtime)) = true := by
      intro a b
      simp only [Bool.or_eq_true, decide_eq_true_eq]
      omega
    have hsorted := @List.sorted_mergeSort DistFile
      (fun a b => decide (a.mtime ≤ b.mtime)) htrans htotal files
    have hsorted2 : (files.mergeSort (fun a b => decide (a.mtime ≤ b.mtime))).Pairwise
        (fun a b => a.mtime ≤ b.mtime) :=
      hsorted.imp (fun h => by simpa using h)
    have hne2 : files.mergeSort (fun a b => decide (a.mtime ≤ b.mtime)) ≠ [] := by
      obtain ⟨x, hx⟩ : ∃ x, x ∈ files := by
        rcases files with _ | ⟨x, xs⟩
        · exact absurd rfl hne
        · exact ⟨x, by simp⟩
      exact List.ne_nil_of_mem (List.mem_mergeSort.mpr hx)
    refine ⟨(files.mergeSort (fun a b => decide (a.mtime ≤ b.mtime))).getLast hne2,
      List.getLast?_eq_getLast _ hne2, ?_, ?_⟩
    · exact List.mem_mergeSort.mp (List.getLast_mem hne2)
    · intro g hg
      exact pairwise_le_getLast_max hsorted2 (List.getLast?_eq_getLast _ hne2) g
        (List.mem_mergeSort.mpr hg)

/-! Claim C3. -/

/-- C3: when the suppress flag (`no_package`) is set, the core-install path is
never entered on any run — for every remote behaviour, and even when a core
artifact is present. -/
theorem C3_no_package_skips_core (c : ExecutionController) (env : ClientEnv)
    (h : c.additional_libraries.no_package = true) :
    Event.enter_install_package ∉ (c.run env []).2 := by
  have hrun : EmitsOnly (c.run env) (fun e => e ≠ Event.enter_install_package) := by
    apply run_emitsOnly
    · intro rf _
      exact (install_requirements_emitsOnly c env rf).mono
        (by rintro e (⟨u, rfl⟩ | ⟨cmd, rfl⟩) <;> simp)
    · intro hnp
      rw [h] at hnp
      exact Bool.noConfusion hnp
    · exact (install_extra_package_emitsOnly c env).mono
        (by rintro e (⟨u, rfl⟩ | ⟨cmd, rfl⟩ | ⟨p, x, rfl⟩) <;> simp)
    · intro t _
      exact ⟨(preprocess_emitsOnly c env _).mono (by rintro e (rfl | rfl) <;> simp),
        (execute_entrypoint_file_emitsOnly c env _).mono (by rintro e rfl; simp)⟩
    · intro t _
      refine ⟨EmitsOnly.of_ite
        ((preprocess_emitsOnly c env _).mono (by rintro e (rfl | rfl) <;> simp))
        (EmitsOnly.of_ite
          ((preprocess_emitsOnly c env _).mono (by rintro e (rfl | rfl) <;> simp))
          (emitsOnly_pure _ _)), ?_⟩
      exact (execute_entrypoint_emitsOnly c env _).mono (by rintro e rfl; simp)
    · simp
  obtain ⟨d, hd, hP⟩ := hrun []
  rw [hd, List.nil_append]
  intro hmem
  exact hP _ hmem rfl

theorem C3_witness :
    suppressed_core_controller.additional_libraries.no_package = true ∧
    suppressed_core_controller.additional_libraries.core_package.isSome = true ∧
    Event.enter_install_package ∉ (suppressed_core_controller.run ok_env []).2 :=
  ⟨rfl, rfl, C3_no_package_skips_core suppressed_core_controller ok_env rfl⟩

/-! Claim C4. -/

/-- C4 counterexample: with a requirements manifest present, a run whose core
install is requested but has no core artifact does fail with the
missing-artifact error, yet a remote call (the requirements upload) has
already been issued — contradicting the claim's "before issuing any remote
call (no upload ...)". -/
theorem C4_counterexample :
    (req_no_core_controller.run ok_env []).1 =
      Except.error RunError.core_package_not_found ∧
    Event.upload "file:fuse://reqs.txt" ∈ (req_no_core_controller.run ok_env []).2 := by
  refine ⟨rfl, ?_⟩
  decide

/-- C4 (amended): when a core install is requested with no core artifact, the
run fails and never issues an install command; it fails before any remote
call of the core-install phase, and when no requirements manifest was
supplied it fails before any remote call at all (the trace holds only the
control-flow marker). -/
theorem C4_missing_core_artifact (c : ExecutionController) (env : ClientEnv)
    (hnp : c.additional_libraries.no_package = false)
    (hcore : c.additional_libraries.core_package = none) :
    (∀ p x, Event.install_package p x ∉ (c.run env []).2) ∧
    (c.run env []).1 ≠ Except.ok () ∧
    (c.requirements_file = none →
      c.run env [] = (Except.error RunError.core_package_not_found,
        [Event.enter_install_package])) := by
  refine ⟨?_, ?_, ?_⟩
  · have hrun : EmitsOnly (c.run env) (fun e => ∀ p x, e ≠ Event.install_package p x) := by
      unfold ExecutionController.run
      apply EmitsOnly.bind
      · rcases hrf : c.requirements_file with _ | rf
        · exact emitsOnly_pure _ _
        · exact (install_requirements_emitsOnly c env rf).mono
            (by rintro e (⟨u, rfl⟩ | ⟨cmd, rfl⟩) <;> simp)
      intro _
      apply emitsOnly_bind_error
      · rw [hnp, if_pos (show (!false) = true from rfl)]
        exact (install_package_none_emitsOnly c env _ hcore).mono (by rintro e rfl; simp)
      · intro tr
        rw [hnp, if_pos (show (!false) = true from rfl),
          install_package_none c env _ tr hcore]
        exact ⟨RunError.core_package_not_found, rfl⟩
    intro p x
    obtain ⟨d, hd, hP⟩ := hrun []
    rw [hd, List.nil_append]
    intro hmem
    exact hP _ hmem p x rfl
  · intro hok
    unfold ExecutionController.run at hok
    obtain ⟨tr1, tr2, tr3, tr4, h1, h2, h3, h4, h5⟩ := M.seq5_ok hok
    rw [hnp, if_pos (show (!false) = true from rfl),
      install_package_none c env _ tr1 hcore] at h2
    exact Except.noConfusion (congrArg Prod.fst h2)
  · intro hreq
    unfold ExecutionController.run
    rw [M.bind_apply, hreq]
    dsimp only
    rw [M.bind_apply, hnp, if_pos (show (!false) = true from rfl),
      install_package_none c env _ [] hcore]
    rfl

theorem C4_witness :
    (∀ p x, Event.install_package p x ∉ (no_core_controller.run ok_env []).2) ∧
    no_core_controller.run ok_env [] =
      (Except.error RunError.core_package_not_found, [Event.enter_install_package]) :=
  ⟨(C4_missing_core_artifact no_core_controller ok_env rfl rfl).1,
   (C4_missing_core_artifact no_core_controller ok_env rfl rfl).2.2 rfl⟩

/-! Claim C1. -/

/-- C1 counterexample: a ScriptTask with an empty parameter list still
triggers both the parameter-resolution (Adjuster) call and the
setup_arguments call during `run()`. -/
theorem C1_counterexample :
    script_controller.task = ExecuteTask.spark_python ⟨"job.py", []⟩ ∧
    Event.adjuster_traverse (.list []) ∈ (script_controller.run ok_env []).2 ∧
    Event.setup_arguments (.list []) ∈ (script_controller.run ok_env []).2 := by
  refine ⟨rfl, ?_, ?_⟩ <;> decide

/-- C1 (amended): parameter resolution is conditional on non-empty parameters
only for wheel tasks — a wheel task with empty named and positional
parameters gets no Adjuster call and no setup_arguments call; for a script
task the Adjuster call is made unconditionally, even with an empty parameter
list, whenever the dispatch phase is reached (here: with the three install
phases disabled). -/
theorem C1_parameter_resolution (c : ExecutionController) (env : ClientEnv) :
    (∀ t, c.task = .python_wheel t → t.named_parameters = [] → t.parameters = [] →
      ∀ ps, Event.adjuster_traverse ps ∉ (c.run env []).2 ∧
        Event.setup_arguments ps ∉ (c.run env []).2) ∧
    (∀ t, c.task = .spark_python t → c.additional_libraries.no_package = true →
      c.requirements_file = none → c.additional_libraries.extra_package = none →
      Event.adjuster_traverse (.list t.parameters) ∈ (c.run env []).2) := by
  constructor
  · intro t ht hnamed hpos ps
    have hrun : EmitsOnly (c.run env)
        (fun e => e ≠ Event.adjuster_traverse ps ∧ e ≠ Event.setup_arguments ps) := by
      apply run_emitsOnly
      · intro rf _
        exact (install_requirements_emitsOnly c env rf).mono
          (by rintro e (⟨u, rfl⟩ | ⟨cmd, rfl⟩) <;> simp)
      · intro _
        exact (install_package_emitsOnly c env _).mono
          (by rintro e (rfl | ⟨u, rfl⟩ | ⟨cmd, rfl⟩ | ⟨p, x, rfl⟩) <;> simp)
      · exact (install_extra_package_emitsOnly c env).mono
          (by rintro e (⟨u, rfl⟩ | ⟨cmd, rfl⟩ | ⟨p, x, rfl⟩) <;> simp)
      · intro t2 ht2
        rw [ht] at ht2
        exact ExecuteTask.noConfusion ht2
      · intro t2 ht2
        rw [ht] at ht2
        injection ht2 with htt
        subst htt
        refine ⟨?_, (execute_entrypoint_emitsOnly c env _).mono (by rintro e rfl; simp)⟩
        rw [if_neg (by simp [hnamed]), if_neg (by simp [hpos])]
        exact emitsOnly_pure _ _
      · simp
    obtain ⟨d, hd, hP⟩ := hrun []
    rw [hd, List.nil_append]
    exact ⟨fun hmem => (hP _ hmem).1 rfl, fun hmem => (hP _ hmem).2 rfl⟩
  · intro t ht hnp hreq hextra
    unfold ExecutionController.run
    rw [M.bind_apply, hreq]
    dsimp only
    rw [M.bind_apply, hnp, if_neg (by decide)]
    dsimp only
    rw [M.bind_apply, hextra, if_neg (by decide)]
    dsimp only
    rw [ht]
    dsimp only
    apply mem_bind
    · apply mem_bind
      · exact preprocess_mem_traverse c env _ []
      · intro a
        exact (execute_entrypoint_file_emitsOnly c env _).traceMono
    · intro a
      exact (EmitsOnly.of_ite (emitsOnly_emit trivial) (emitsOnly_pure _ _) :
        EmitsOnly _ (fun _ => True)).traceMono

theorem C1_witness :
    (Event.adjuster_traverse (.list []) ∉ (wheel_empty_controller.run ok_env []).2) ∧
    (Event.adjuster_traverse (.list []) ∈ (script_controller.run ok_env []).2) :=
  ⟨((C1_parameter_resolution wheel_empty_controller ok_env).1 _ rfl rfl rfl (.list [])).1,
   (C1_parameter_resolution script_controller ok_env).2 _ rfl rfl rfl rfl⟩

theorem C8_witness :
    (([⟨"b.whl", 9⟩, ⟨"a.whl", 5⟩, ⟨"c.whl", 1⟩] : List DistFile) ≠ []) ∧
    (∃ f, PackageManager.get_package_file
        [⟨"b.whl", 9⟩, ⟨"a.whl", 5⟩, ⟨"c.whl", 1⟩] = some f ∧
      f ∈ ([⟨"b.whl", 9⟩, ⟨"a.whl", 5⟩, ⟨"c.whl", 1⟩] : List DistFile) ∧
      ∀ g ∈ ([⟨"b.whl", 9⟩, ⟨"a.whl", 5⟩, ⟨"c.whl", 1⟩] : List DistFile),
        g.mtime ≤ f.mtime) :=
  ⟨by decide,
   (C8_locator_max_mtime [⟨"b.whl", 9⟩, ⟨"a.whl", 5⟩, ⟨"c.whl", 1⟩] (by decide)).2
     (by decide)⟩

end Dbx
